import Mathlib

/-!
Verification of the cat-doorbell event ingestion and debounced-alert engine.

The definitions below are a shallow embedding of the Go sources:
* the MQTT subscribe callback in `run` (identity match via `strings.EqualFold`,
  debounce via `lastDetected` guarded by `lastDetectedMu`, alert dispatch via
  `beeep.Notify` and `playDoorbell`),
* the versioned configuration loader `config.FromYAML` / `v1alpha1.GetConfigByKind`,
* the log rotation helper `removeOldLogs`,
* the lifecycle wiring in `main` (quit / signal goroutines around `systray`).

Timestamps are modelled as `Int` nanoseconds on Go's `time.Time` axis, whose zero
value (the `lastDetected` start value) is `0`.  Go's `time.Time.Sub` saturates at
the bounds of `time.Duration` (an `int64` of nanoseconds); `timeSub` mirrors that.
A realistic wall-clock reading is at least `maxDuration` on this axis (the zero
time is year 1, so any reading after roughly year 293 exceeds `2^63 - 1` ns), and
every `time.Duration` value is at most `maxDuration`.
-/

/-- Largest value of Go's `time.Duration` (`int64` nanoseconds): `2 ^ 63 - 1`. -/
def maxDuration : Int := 2 ^ 63 - 1

/-- Smallest value of Go's `time.Duration`: `-2 ^ 63`. -/
def minDuration : Int := -(2 ^ 63)

/-- Go's `time.Time.Sub` (hence `time.Since`): the difference `t - u`, saturated
at the `time.Duration` bounds. -/
def timeSub (t u : Int) : Int := max minDuration (min maxDuration (t - u))

/-- The debounce state of `run`: the `lastDetected time.Time` variable.  Its Go
zero value is the timestamp `0`. -/
structure DebounceState where
  lastDetected : Int
deriving DecidableEq, Repr

/-- The value of `lastDetected` at process start: the zero `time.Time`. -/
def initialState : DebounceState := ⟨0⟩

/-- The read-compare-write on `lastDetected` performed inside the callback while
`lastDetectedMu` is held: `if time.Since(lastDetected) >= cooldown { lastDetected
= time.Now(); ... }`.  Returns whether the sighting was accepted together with
the updated state. -/
def tryAccept (st : DebounceState) (now cooldown : Int) : Bool × DebounceState :=
  if cooldown ≤ timeSub now st.lastDetected then (true, ⟨now⟩) else (false, st)

/-- Identifiers are Go strings, i.e. byte sequences; here a byte is a `Nat`
below 256, and an ASCII identifier has all bytes below 128. -/
def strBytes (s : String) : List Nat := s.data.map Char.toNat

/-- One byte-pair comparison of the ASCII fast path of Go's `strings.EqualFold`
(the path taken while `sr | tr < utf8.RuneSelf`): equal bytes match; otherwise,
with `sr` the smaller of the two, they match exactly when `sr` is an ASCII
upper-case letter (`65 = 'A'` … `90 = 'Z'`) and the larger is `sr + 32`
(Go's `sr + 'a' - 'A'`). -/
def foldEqASCII (sr tr : Nat) : Bool :=
  if tr = sr then true
  else if tr < sr then decide (65 ≤ tr ∧ tr ≤ 90 ∧ sr = tr + 32)
  else decide (65 ≤ sr ∧ sr ≤ 90 ∧ tr = sr + 32)

/-- Go's `strings.EqualFold` on ASCII byte sequences: compare byte-wise with
`foldEqASCII`; at the end of either operand the result is whether the lengths
agree (`return len(s) == len(t)`). -/
def goEqualFold : List Nat → List Nat → Bool
  | [], [] => true
  | s :: ss, t :: ts => foldEqASCII s t && goEqualFold ss ts
  | _, _ => false

/-- ASCII case folding: map an upper-case letter byte to its lower-case form,
leave every other byte unchanged. -/
def asciiFold (b : Nat) : Nat := if 65 ≤ b ∧ b ≤ 90 then b + 32 else b

theorem foldEqASCII_iff (s t : Nat) :
    foldEqASCII s t = true ↔ asciiFold s = asciiFold t := by
  simp only [foldEqASCII, asciiFold]
  split
  · simp_all
  · split <;> simp only [decide_eq_true_eq] <;> split <;> split <;> omega

theorem goEqualFold_iff_map_fold (s t : List Nat) :
    goEqualFold s t = true ↔ s.map asciiFold = t.map asciiFold := by
  induction s generalizing t with
  | nil => cases t <;> simp [goEqualFold]
  | cons x xs ih =>
    cases t with
    | nil => simp [goEqualFold]
    | cons y ys =>
      simp [goEqualFold, foldEqASCII_iff, ih]

/-- C3. The identity matcher: on ASCII identifiers, `strings.EqualFold` returns
`true` exactly when the two byte sequences agree after ASCII case folding —
case only is ignored, and any other difference (including separator characters)
makes the match fail. -/
theorem equalFold_case_insensitive (s t : List Nat)
    (_hs : ∀ b ∈ s, b < 128) (_ht : ∀ b ∈ t, b < 128) :
    goEqualFold s t = true ↔ s.map asciiFold = t.map asciiFold :=
  goEqualFold_iff_map_fold s t

/-- Witness for `equalFold_case_insensitive`: the upper-case and lower-case
spellings of the same MAC address match, and a MAC address differing in one
hex digit does not. -/
theorem equalFold_case_insensitive_witness :
    goEqualFold (strBytes "AA:BB:CC:DD:EE:FF") (strBytes "aa:bb:cc:dd:ee:ff") = true ∧
    goEqualFold (strBytes "AA:BB:CC:DD:EE:FF") (strBytes "aa:bb:cc:dd:ee:fe") = false := by
  constructor
  · exact (equalFold_case_insensitive (strBytes "AA:BB:CC:DD:EE:FF")
      (strBytes "aa:bb:cc:dd:ee:ff") (by decide) (by decide)).mpr (by decide)
  · decide

/-- C2. The debounce gate: when `lastDetected` is still the zero value (process
start) the sighting is accepted and the state set to `now` (Go's saturating
`time.Since` of the zero time is `maxDuration`, at least any `time.Duration`
cooldown, given a wall clock past `maxDuration` on the zero-time axis); when the
state holds an earlier acceptance and the difference fits in a `time.Duration`,
the sighting is accepted with the state set to `now` exactly when
`now - lastDetected ≥ cooldown`, and otherwise it is suppressed with the state
unchanged. -/
theorem tryAccept_gate_spec (last now cooldown : Int) (hcd : cooldown ≤ maxDuration) :
    ((last = 0 ∧ maxDuration ≤ now) → tryAccept ⟨last⟩ now cooldown = (true, ⟨now⟩)) ∧
    ((minDuration ≤ now - last ∧ now - last ≤ maxDuration) →
      tryAccept ⟨last⟩ now cooldown =
        if cooldown ≤ now - last then (true, ⟨now⟩) else (false, ⟨last⟩)) := by
  constructor
  · rintro ⟨h0, hnow⟩
    subst h0
    have hts : timeSub now 0 = maxDuration := by
      simp only [timeSub, maxDuration, minDuration] at *
      omega
    simp [tryAccept, hts, hcd]
  · rintro ⟨h1, h2⟩
    have hts : timeSub now last = now - last := by
      simp only [timeSub, maxDuration, minDuration] at *
      omega
    simp only [tryAccept, hts]

/-- Witness for `tryAccept_gate_spec` at a concrete fresh-start state and a
concrete in-window suppression. -/
theorem tryAccept_gate_spec_witness :
    tryAccept ⟨0⟩ (2 ^ 63) 300000000000 = (true, ⟨2 ^ 63⟩) ∧
    tryAccept ⟨2 ^ 63⟩ (2 ^ 63 + 60000000000) 300000000000 =
      (false, ⟨2 ^ 63⟩) := by
  constructor
  · exact (tryAccept_gate_spec 0 (2 ^ 63) 300000000000 (by decide)).1
      ⟨rfl, by decide⟩
  · have h := (tryAccept_gate_spec (2 ^ 63) (2 ^ 63 + 60000000000) 300000000000
      (by decide)).2 ⟨by decide, by decide⟩
    simpa using h

/-- Result of dispatching one alert channel (`beeep.Notify` or `playDoorbell`):
the error value returned by the channel is either absent (success) or present
(failure, logged as a warning). -/
inductive AlertOutcome
  | succeeded
  | failed
deriving DecidableEq, Repr

/-- The two alert channels of one callback invocation: `none` when the channel
was not invoked at all, `some o` when it was invoked with outcome `o`. -/
structure Alerts where
  visualOutcome : Option AlertOutcome
  audioOutcome : Option AlertOutcome
deriving DecidableEq, Repr

/-- Everything one invocation of the subscribe callback produces: the debounce
state it leaves behind, whether the sighting was accepted, and what happened on
each alert channel. -/
structure StepResult where
  state : DebounceState
  accepted : Bool
  alerts : Alerts
deriving DecidableEq, Repr

/-- The MQTT subscribe callback of `run`, for one delivered message.  The
payload bytes are taken verbatim as the observed identifier (`mac :=
string(msg.Payload())`; nothing can fail here) and compared with the target by
`strings.EqualFold`.  On a match the callback runs the debounce check under
`lastDetectedMu`; on acceptance it first sets `lastDetected = time.Now()`, then
invokes `beeep.Notify` and then `playDoorbell`, each unconditionally, logging
(and otherwise ignoring) a failure of either.  `notifyFails` and `playFails`
say whether the respective external channel fails on this invocation. -/
def handleMessage (targetMAC : List Nat) (cooldown : Int) (st : DebounceState)
    (payload : List Nat) (now : Int) (notifyFails playFails : Bool) : StepResult :=
  if goEqualFold payload targetMAC then
    if cooldown ≤ timeSub now st.lastDetected then
      { state := ⟨now⟩
        accepted := true
        alerts :=
          { visualOutcome := some (if notifyFails then .failed else .succeeded)
            audioOutcome := some (if playFails then .failed else .succeeded) } }
    else { state := st, accepted := false, alerts := ⟨none, none⟩ }
  else { state := st, accepted := false, alerts := ⟨none, none⟩ }

/-- C4. Non-matching isolation: a delivered payload that does not `EqualFold`
the configured target leaves the debounce state exactly as it was, is not
accepted, and invokes neither the visual-notification channel nor the audio
channel. -/
theorem nonmatching_no_effect (targetMAC : List Nat) (cooldown : Int)
    (st : DebounceState) (payload : List Nat) (now : Int) (nf pf : Bool)
    (h : goEqualFold payload targetMAC = false) :
    handleMessage targetMAC cooldown st payload now nf pf =
      { state := st, accepted := false, alerts := ⟨none, none⟩ } := by
  simp [handleMessage, h]

/-- Witness for `nonmatching_no_effect`: a foreign MAC address delivered while
watching `AA:BB:CC:DD:EE:FF` changes nothing and dispatches nothing. -/
theorem nonmatching_no_effect_witness :
    handleMessage (strBytes "AA:BB:CC:DD:EE:FF") 300000000000 ⟨0⟩
      (strBytes "11:22:33:44:55:66") (2 ^ 63) false false =
      { state := ⟨0⟩, accepted := false, alerts := ⟨none, none⟩ } :=
  nonmatching_no_effect (strBytes "AA:BB:CC:DD:EE:FF") 300000000000 ⟨0⟩
    (strBytes "11:22:33:44:55:66") (2 ^ 63) false false (by decide)

/-- C6. Alert-channel independence: on an accepted detection both channels are
invoked whatever the failure behaviour of either; each channel's outcome
depends only on its own failure, and the debounce state update to `now` is
retained even when one or both channels fail, so failures never roll back the
acceptance or affect future detections. -/
theorem alert_channels_independent (targetMAC : List Nat) (cooldown : Int)
    (st : DebounceState) (payload : List Nat) (now : Int)
    (hmatch : goEqualFold payload targetMAC = true)
    (haccept : cooldown ≤ timeSub now st.lastDetected) :
    ∀ nf pf : Bool,
      handleMessage targetMAC cooldown st payload now nf pf =
        { state := ⟨now⟩
          accepted := true
          alerts :=
            { visualOutcome := some (if nf then .failed else .succeeded)
              audioOutcome := some (if pf then .failed else .succeeded) } } := by
  intro nf pf
  simp [handleMessage, hmatch, haccept]

/-- Witness for `alert_channels_independent`: with the audio channel forced to
fail, the accepted detection still reports a successful visual notification and
keeps the state update; symmetrically for a failing visual channel. -/
theorem alert_channels_independent_witness :
    handleMessage (strBytes "AA:BB:CC:DD:EE:FF") 300000000000 ⟨0⟩
        (strBytes "aa:bb:cc:dd:ee:ff") (2 ^ 63) false true =
      { state := ⟨2 ^ 63⟩
        accepted := true
        alerts := ⟨some .succeeded, some .failed⟩ } ∧
    handleMessage (strBytes "AA:BB:CC:DD:EE:FF") 300000000000 ⟨0⟩
        (strBytes "aa:bb:cc:dd:ee:ff") (2 ^ 63) true false =
      { state := ⟨2 ^ 63⟩
        accepted := true
        alerts := ⟨some .failed, some .succeeded⟩ } := by
  constructor
  · exact alert_channels_independent (strBytes "AA:BB:CC:DD:EE:FF") 300000000000
      ⟨0⟩ (strBytes "aa:bb:cc:dd:ee:ff") (2 ^ 63) (by decide) (by decide) false true
  · exact alert_channels_independent (strBytes "AA:BB:CC:DD:EE:FF") 300000000000
      ⟨0⟩ (strBytes "aa:bb:cc:dd:ee:ff") (2 ^ 63) (by decide) (by decide) true false

/-- Qualifying sightings delivered in order: every delivery runs the callback's
debounce section under `lastDetectedMu`, so the deliveries execute as a
sequence of atomic `tryAccept` steps.  Returns the number of accepted
detections. -/
def processSightings (cooldown : Int) (st : DebounceState) : List Int → Nat
  | [] => 0
  | t :: ts =>
    (if (tryAccept st t cooldown).1 then 1 else 0) +
      processSightings cooldown (tryAccept st t cooldown).2 ts

/-- The accept / suppress verdict of each sighting of a delivered sequence, in
order. -/
def acceptedFlags (cooldown : Int) (st : DebounceState) : List Int → List Bool
  | [] => []
  | t :: ts =>
    (tryAccept st t cooldown).1 :: acceptedFlags cooldown (tryAccept st t cooldown).2 ts

/-- Count described by the spec for the sightings after the first: a sighting
at `t` is accepted exactly when `t` minus the timestamp of the last accepted
detection is at least the cooldown. -/
def specAuxCount (cooldown lastAccepted : Int) : List Int → Nat
  | [] => 0
  | t :: ts =>
    if cooldown ≤ t - lastAccepted then 1 + specAuxCount cooldown t ts
    else specAuxCount cooldown lastAccepted ts

/-- Count described by the spec's debounce invariant, written from the spec's
words for comparison with `processSightings`: the first sighting is accepted,
and a later sighting is accepted exactly when its timestamp minus the last
accepted timestamp is at least the cooldown. -/
def specAcceptedCount (cooldown : Int) : List Int → Nat
  | [] => 0
  | t :: ts => 1 + specAuxCount cooldown t ts

theorem timeSub_of_window (t last : Int) (h1 : minDuration ≤ t - last)
    (h2 : t - last ≤ maxDuration) : timeSub t last = t - last := by
  simp only [timeSub, maxDuration, minDuration] at *
  omega

theorem timeSub_zero_of_wall_clock (t : Int) (h : maxDuration ≤ t) :
    timeSub t 0 = maxDuration := by
  simp only [timeSub, maxDuration, minDuration] at *
  omega

theorem processSightings_after_first (cooldown last : Int) (ts : List Int)
    (hlast : maxDuration ≤ last ∧ last ≤ 2 * maxDuration)
    (hts : ∀ t ∈ ts, maxDuration ≤ t ∧ t ≤ 2 * maxDuration) :
    processSightings cooldown ⟨last⟩ ts = specAuxCount cooldown last ts := by
  induction ts generalizing last with
  | nil => rfl
  | cons t ts ih =>
    have ht := hts t (List.mem_cons_self t ts)
    have hsub : timeSub t last = t - last :=
      timeSub_of_window t last
        (by simp only [minDuration, maxDuration] at *; omega)
        (by simp only [minDuration, maxDuration] at *; omega)
    have hts' : ∀ u ∈ ts, maxDuration ≤ u ∧ u ≤ 2 * maxDuration :=
      fun u hu => hts u (List.mem_cons_of_mem t hu)
    simp only [processSightings, specAuxCount, tryAccept, hsub]
    by_cases hc : cooldown ≤ t - last
    · simp [hc, ih t ht hts']
    · simp [hc, ih last hlast hts']

/-- C1. Debounce invariant: for a sequence of qualifying sightings with
non-decreasing timestamps, processed from the fresh state, the number of
accepted detections computed by the code equals the count described by the
spec — the first sighting plus every sighting whose timestamp minus the last
accepted timestamp is at least the cooldown.  The timestamps range over a
process-lifetime window of wall-clock readings (at least `maxDuration` past
the zero time, within one `maxDuration` of each other), and the cooldown is a
positive `time.Duration`. -/
theorem debounce_sequence_spec (cooldown : Int) (ts : List Int)
    (_hcpos : 0 < cooldown) (hcd : cooldown ≤ maxDuration)
    (hts : ∀ t ∈ ts, maxDuration ≤ t ∧ t ≤ 2 * maxDuration)
    (_hsorted : List.Chain' (· ≤ ·) ts) :
    processSightings cooldown initialState ts = specAcceptedCount cooldown ts := by
  cases ts with
  | nil => rfl
  | cons t ts =>
    have ht := hts t (List.mem_cons_self t ts)
    have hsub : timeSub t 0 = maxDuration := timeSub_zero_of_wall_clock t ht.1
    have hacc : (tryAccept initialState t cooldown) = (true, ⟨t⟩) := by
      simp [tryAccept, initialState, hsub, hcd]
    have hts' : ∀ u ∈ ts, maxDuration ≤ u ∧ u ≤ 2 * maxDuration :=
      fun u hu => hts u (List.mem_cons_of_mem t hu)
    simp only [processSightings, specAcceptedCount, hacc]
    simp [processSightings_after_first cooldown t ts ht hts']

/-- Witness for `debounce_sequence_spec`: with a 5-minute cooldown and
sightings at offsets 0 s, 60 s, 301 s, 302 s from a wall-clock base, exactly
two sightings are accepted — the first and the third. -/
theorem debounce_sequence_spec_witness :
    processSightings 300000000000 initialState
        [2 ^ 63 - 1, 2 ^ 63 - 1 + 60000000000, 2 ^ 63 - 1 + 301000000000,
          2 ^ 63 - 1 + 302000000000] = 2 ∧
    acceptedFlags 300000000000 initialState
        [2 ^ 63 - 1, 2 ^ 63 - 1 + 60000000000, 2 ^ 63 - 1 + 301000000000,
          2 ^ 63 - 1 + 302000000000] = [true, false, true, false] := by
  constructor
  · exact (debounce_sequence_spec 300000000000
      [2 ^ 63 - 1, 2 ^ 63 - 1 + 60000000000, 2 ^ 63 - 1 + 301000000000,
        2 ^ 63 - 1 + 302000000000]
      (by decide) (by decide) (by decide)
      (by norm_num [List.chain'_cons])).trans (by decide)
  · decide

theorem processSightings_same_time (cooldown t0 : Int) (m : Nat)
    (hcpos : 0 < cooldown) :
    processSightings cooldown ⟨t0⟩ (List.replicate m t0) = 0 := by
  induction m with
  | zero => rfl
  | succ k ih =>
    have hsub : timeSub t0 t0 = 0 := by
      simp only [timeSub, maxDuration, minDuration]
      omega
    have hrej : (tryAccept ⟨t0⟩ t0 cooldown) = (false, ⟨t0⟩) := by
      simp [tryAccept, hsub]
      omega
    simp only [List.replicate_succ, processSightings, hrej, ih]
    simp

/-- C5. Concurrent-acceptance race freedom: the whole read-compare-write of the
callback runs under `lastDetectedMu`, so any concurrent delivery of qualifying
sightings executes as some sequential order of atomic `tryAccept` steps; `n`
qualifying sightings all carrying the same wall-clock instant `t0` (every
serialization of "100 fired concurrently at t = 0" is such a list), with a
positive cooldown, yield exactly one accepted detection — never zero, never
more than one. -/
theorem concurrent_single_acceptance (n : Nat) (t0 cooldown : Int)
    (hn : 0 < n) (hcpos : 0 < cooldown) (hcd : cooldown ≤ maxDuration)
    (ht0 : maxDuration ≤ t0) :
    processSightings cooldown initialState (List.replicate n t0) = 1 := by
  cases n with
  | zero => omega
  | succ m =>
    have hsub : timeSub t0 0 = maxDuration := timeSub_zero_of_wall_clock t0 ht0
    have hacc : (tryAccept initialState t0 cooldown) = (true, ⟨t0⟩) := by
      simp [tryAccept, initialState, hsub, hcd]
    simp only [List.replicate_succ, processSightings, hacc,
      processSightings_same_time cooldown t0 m hcpos]
    simp

/-- Witness for `concurrent_single_acceptance`: 100 qualifying sightings at the
same instant with a 5-minute cooldown give exactly one accepted detection. -/
theorem concurrent_single_acceptance_witness :
    processSightings 300000000000 initialState (List.replicate 100 (2 ^ 63)) = 1 :=
  concurrent_single_acceptance 100 (2 ^ 63) 300000000000
    (by decide) (by decide) (by decide) (by decide)

/-- The `apiVersion` / `kind` discriminator pair of a configuration document.
Modelled from the spec: the declaration of `TypeMeta` lives in the
`internal/config/types` package, which is not among the sources; its two fields
are taken from their uses in `config.FromYAML` (the "schema version/kind pair"
of the spec). -/
structure TypeMeta where
  apiVersion : String
  kind : String
deriving DecidableEq, Repr

/-- The constant `v1alpha1.APIVersion`, the supported latest apiVersion. -/
def latestAPIVersion : String := "catdoorbell.github.com/v1alpha1"

/-- The struct `v1alpha1.BrokerConfig`. -/
structure BrokerConfig where
  address : String
  username : String
  password : String
deriving DecidableEq, Repr

/-- The struct `v1alpha1.Config`, the typed configuration value of the latest version. -/
structure Config where
  typeMeta : TypeMeta
  broker : BrokerConfig
  targetMAC : String
  detectionTimeout : Int
deriving DecidableEq, Repr

/-- The failure modes of `config.FromYAML`, in source order: the TypeMeta
unmarshal fails, the apiVersion is unsupported, `GetConfigByKind` rejects the
kind, or the full payload unmarshal fails.  (`migrateToLatest` cannot fail: the
only variant is already the latest.) -/
inductive ConfigError
  | typeMetaUnmarshal
  | unsupportedAPIVersion (v : String)
  | unsupportedKind (k : String)
  | unmarshal
deriving DecidableEq, Repr

/-- The function `v1alpha1.GetConfigByKind`: the kind `"Config"` selects the (sole) known
variant; any other kind is an `unsupported kind` error. -/
def getConfigByKind (kind : String) : Except ConfigError Unit :=
  if kind = "Config" then Except.ok () else Except.error (.unsupportedKind kind)

/-- The function `migrateToLatest`: a `*latestconfig.Config` is already at the latest
version, so it is returned unchanged. -/
def migrateToLatest (c : Config) : Except ConfigError Config := Except.ok c

/-- A YAML configuration document, abstracted to what the two `yaml.Unmarshal`
calls of `FromYAML` can observe of it: the decoded TypeMeta (`none` when that
unmarshal fails) and the decoded full payload as a latest-version `Config`
(`none` when that unmarshal fails). -/
structure YAMLDoc where
  typeMeta : Option TypeMeta
  body : Option Config
deriving DecidableEq, Repr

/-- The function `config.FromYAML`: unmarshal the TypeMeta, switch on the apiVersion
(only `latestAPIVersion` is supported), select the variant by kind via
`GetConfigByKind`, unmarshal the full payload into it, and migrate to the
latest version. -/
def fromYAML (doc : YAMLDoc) : Except ConfigError Config :=
  match doc.typeMeta with
  | none => Except.error .typeMetaUnmarshal
  | some tm =>
    if tm.apiVersion = latestAPIVersion then
      match getConfigByKind tm.kind with
      | Except.error e => Except.error e
      | Except.ok () =>
        match doc.body with
        | none => Except.error .unmarshal
        | some c => migrateToLatest c
    else Except.error (.unsupportedAPIVersion tm.apiVersion)

/-- C7. The configuration loader: a document whose resolved apiVersion is not
the supported latest version yields the unsupported-version error; one whose
apiVersion is the latest but whose kind is unknown yields the unsupported-kind
error; and a typed configuration value is returned exactly when both
discriminators match the supported variant and the full payload decodes. -/
theorem fromYAML_discriminators (doc : YAMLDoc) (tm : TypeMeta)
    (h : doc.typeMeta = some tm) :
    (tm.apiVersion ≠ latestAPIVersion →
      fromYAML doc = Except.error (.unsupportedAPIVersion tm.apiVersion)) ∧
    (tm.apiVersion = latestAPIVersion → tm.kind ≠ "Config" →
      fromYAML doc = Except.error (.unsupportedKind tm.kind)) ∧
    (∀ c, fromYAML doc = Except.ok c ↔
      (tm.apiVersion = latestAPIVersion ∧ tm.kind = "Config" ∧ doc.body = some c)) := by
  refine ⟨fun hv => ?_, fun hv hk => ?_, fun c => ?_⟩
  · simp [fromYAML, h, hv]
  · simp [fromYAML, h, hv, getConfigByKind, hk]
  · by_cases hv : tm.apiVersion = latestAPIVersion
    · by_cases hk : tm.kind = "Config"
      · cases hb : doc.body with
        | none => simp [fromYAML, h, hv, hk, hb, getConfigByKind]
        | some c0 =>
          simp [fromYAML, h, hv, hk, hb, getConfigByKind, migrateToLatest]
      · simp [fromYAML, h, hv, getConfigByKind, hk]
    · simp [fromYAML, h, hv]

/-- Witness for `fromYAML_discriminators`: a wrong apiVersion is rejected with
the unsupported-version error, a wrong kind with the unsupported-kind error,
and a document with both discriminators right and a decoding payload yields
exactly that payload. -/
theorem fromYAML_discriminators_witness :
    fromYAML ⟨some ⟨"example.com/v1", "Config"⟩, none⟩ =
      Except.error (.unsupportedAPIVersion "example.com/v1") ∧
    fromYAML ⟨some ⟨"catdoorbell.github.com/v1alpha1", "Settings"⟩, none⟩ =
      Except.error (.unsupportedKind "Settings") ∧
    fromYAML
        ⟨some ⟨"catdoorbell.github.com/v1alpha1", "Config"⟩,
          some ⟨⟨"catdoorbell.github.com/v1alpha1", "Config"⟩,
            ⟨"tcp://host:1883", "user", "pass"⟩, "AA:BB:CC:DD:EE:FF", 300000000000⟩⟩ =
      Except.ok
        ⟨⟨"catdoorbell.github.com/v1alpha1", "Config"⟩,
          ⟨"tcp://host:1883", "user", "pass"⟩, "AA:BB:CC:DD:EE:FF", 300000000000⟩ := by
  refine ⟨?_, ?_, ?_⟩
  · exact (fromYAML_discriminators ⟨some ⟨"example.com/v1", "Config"⟩, none⟩
      ⟨"example.com/v1", "Config"⟩ rfl).1 (by decide)
  · exact (fromYAML_discriminators
      ⟨some ⟨"catdoorbell.github.com/v1alpha1", "Settings"⟩, none⟩
      ⟨"catdoorbell.github.com/v1alpha1", "Settings"⟩ rfl).2.1 rfl (by decide)
  · exact ((fromYAML_discriminators _ _ rfl).2.2 _).mpr ⟨rfl, rfl, rfl⟩

/-- Whether a byte is an ASCII hexadecimal digit (`0`–`9`, `A`–`F`, `a`–`f`):
the byte alphabet of the textual MAC address form of the README
(`AA:BB:CC:DD:EE:FF`). -/
def isHexDigit (b : Nat) : Bool :=
  decide ((48 ≤ b ∧ b ≤ 57) ∨ (65 ≤ b ∧ b ≤ 70) ∨ (97 ≤ b ∧ b ≤ 102))

/-- The colon-separated hex-pair shape: groups of two hex digits separated by
`58 = ':'`. -/
def macPattern : List Nat → Bool
  | [a, b] => isHexDigit a && isHexDigit b
  | a :: b :: c :: rest => isHexDigit a && isHexDigit b && decide (c = 58) && macPattern rest
  | _ => false

/-- The target identifier's textual form: six colon-separated hex pairs
(17 bytes). -/
def isValidMAC (s : List Nat) : Bool := decide (s.length = 17) && macPattern s

theorem isHexDigit_fold (b : Nat) : isHexDigit (asciiFold b) = isHexDigit b := by
  simp only [asciiFold, isHexDigit]
  split
  · simp only [decide_eq_decide]
    omega
  · rfl

theorem asciiFold_eq_colon (b : Nat) : (asciiFold b = 58) ↔ b = 58 := by
  simp only [asciiFold]
  split <;> omega

theorem macPattern_map_fold : ∀ s : List Nat, macPattern (s.map asciiFold) = macPattern s
  | [] => by simp [macPattern]
  | [a] => by simp [macPattern]
  | [a, b] => by simp [macPattern, isHexDigit_fold]
  | a :: b :: c :: rest => by
    simp only [List.map_cons, macPattern, isHexDigit_fold,
      macPattern_map_fold rest, decide_eq_decide, asciiFold_eq_colon]

theorem isValidMAC_map_fold (s : List Nat) :
    isValidMAC (s.map asciiFold) = isValidMAC s := by
  simp [isValidMAC, macPattern_map_fold]

theorem goEqualFold_false_of_invalid (p t : List Nat)
    (ht : isValidMAC t = true) (hp : isValidMAC p = false) :
    goEqualFold p t = false := by
  cases hg : goEqualFold p t with
  | false => rfl
  | true =>
    have hmap := (goEqualFold_iff_map_fold p t).mp hg
    have : isValidMAC p = isValidMAC t := by
      rw [← isValidMAC_map_fold p, hmap, isValidMAC_map_fold t]
    rw [hp, ht] at this
    exact absurd this (by decide)

/-- C8. Malformed input: a delivered payload that is not in the target
identifier's textual form (six colon-separated hex pairs) cannot `EqualFold`
a well-formed target, so the callback — which is total: the payload bytes are
taken verbatim, nothing parses and nothing can raise an error — treats it as a
non-matching sighting: not accepted, debounce state untouched, neither alert
channel invoked. -/
theorem malformed_payload_nonmatching (targetMAC payload : List Nat)
    (cooldown : Int) (st : DebounceState) (now : Int) (nf pf : Bool)
    (_hascii : ∀ b ∈ payload, b < 128)
    (htarget : isValidMAC targetMAC = true)
    (hmal : isValidMAC payload = false) :
    handleMessage targetMAC cooldown st payload now nf pf =
      { state := st, accepted := false, alerts := ⟨none, none⟩ } := by
  simp [handleMessage, goEqualFold_false_of_invalid payload targetMAC htarget hmal]

/-- Witness for `malformed_payload_nonmatching`: the payload `"garbage"` while
watching `AA:BB:CC:DD:EE:FF` changes nothing, dispatches nothing and is not an
error. -/
theorem malformed_payload_nonmatching_witness :
    handleMessage (strBytes "AA:BB:CC:DD:EE:FF") 300000000000 ⟨2 ^ 63⟩
        (strBytes "garbage") (2 ^ 63) false false =
      { state := ⟨2 ^ 63⟩, accepted := false, alerts := ⟨none, none⟩ } :=
  malformed_payload_nonmatching (strBytes "AA:BB:CC:DD:EE:FF")
    (strBytes "garbage") 300000000000 ⟨2 ^ 63⟩ (2 ^ 63) false false
    (by decide) (by decide) (by decide)

/-- The process-level lifecycle phases of the spec's state machine
`Starting -> Running -> ShuttingDown -> Stopped`. -/
inductive Phase
  | starting
  | running
  | shuttingDown
  | stopped
deriving DecidableEq, Repr

/-- The events the running process can observe: the three termination triggers
wired up in `main` — the tray Quit click and the `SIGTERM` / `SIGINT` signal
(raced by one `select`, each arm calling `systray.Quit`), and the `run`
goroutine returning (its deferred `systray.Quit`) — plus the completion of the
teardown sequence. -/
inductive LifecycleEvent
  | quitClick
  | termSignal
  | runDone
  | teardownDone
deriving DecidableEq, Repr

/-- Whether an event is a termination trigger. -/
def isTrigger : LifecycleEvent → Bool
  | .teardownDone => false
  | _ => true

/-- The lifecycle state: the current phase, and how many teardown sequences
have been started. -/
structure Lifecycle where
  phase : Phase
  teardowns : Nat
deriving DecidableEq, Repr

/-- Modelled from the spec: the teardown collapse lives in the external
`systray` collaborator (`systray.Quit` / `systray.Run` are not among the
sources; `main` only wires triggers to `systray.Quit`).  Per the spec's
lifecycle state machine, a termination trigger in `Running` starts the (one)
teardown sequence and moves to `ShuttingDown`; any further trigger is absorbed;
completion of the teardown moves to `Stopped`, which is terminal. -/
def lifecycleStep (st : Lifecycle) (e : LifecycleEvent) : Lifecycle :=
  match e with
  | .quitClick | .termSignal | .runDone =>
    match st.phase with
    | .running => ⟨.shuttingDown, st.teardowns + 1⟩
    | _ => st
  | .teardownDone =>
    match st.phase with
    | .shuttingDown => ⟨.stopped, st.teardowns⟩
    | _ => st

theorem lifecycleStep_trigger_running (e : LifecycleEvent) (n : Nat)
    (h : isTrigger e = true) :
    lifecycleStep ⟨Phase.running, n⟩ e = ⟨Phase.shuttingDown, n + 1⟩ := by
  cases e <;> simp_all [isTrigger, lifecycleStep]

theorem foldl_triggers_absorbed (es : List LifecycleEvent) (n : Nat)
    (h : ∀ e ∈ es, isTrigger e = true) :
    es.foldl lifecycleStep ⟨Phase.shuttingDown, n⟩ = ⟨Phase.shuttingDown, n⟩ := by
  induction es with
  | nil => rfl
  | cons e es ih =>
    have he := h e (List.mem_cons_self e es)
    have hstep : lifecycleStep ⟨Phase.shuttingDown, n⟩ e = ⟨Phase.shuttingDown, n⟩ := by
      cases e <;> simp_all [isTrigger, lifecycleStep]
    simp only [List.foldl_cons, hstep]
    exact ih fun u hu => h u (List.mem_cons_of_mem e hu)

/-- C9. Shutdown idempotence: from the `Running` phase, any non-empty sequence
of termination triggers (tray quit clicks, termination signals, the `run`
goroutine returning, in any order and number) followed by the completion of
the teardown ends in the terminal `Stopped` phase with exactly one teardown
sequence ever started; and once `Stopped`, no further event changes
anything. -/
theorem shutdown_idempotent (es : List LifecycleEvent)
    (htr : ∀ e ∈ es, isTrigger e = true) (hne : es ≠ []) :
    (es ++ [LifecycleEvent.teardownDone]).foldl lifecycleStep ⟨Phase.running, 0⟩ =
      ⟨Phase.stopped, 1⟩ ∧
    ∀ (e : LifecycleEvent) (k : Nat),
      lifecycleStep ⟨Phase.stopped, k⟩ e = ⟨Phase.stopped, k⟩ := by
  constructor
  · cases es with
    | nil => exact absurd rfl hne
    | cons e es =>
      have he := htr e (List.mem_cons_self e es)
      simp only [List.cons_append, List.foldl_cons,
        lifecycleStep_trigger_running e 0 he]
      rw [List.foldl_append,
        foldl_triggers_absorbed es 1 fun u hu => htr u (List.mem_cons_of_mem e hu)]
      rfl
  · intro e k
    cases e <;> rfl

/-- Witness for `shutdown_idempotent`: a termination signal and a quit click
in quick succession yield one teardown and the terminal `Stopped` phase. -/
theorem shutdown_idempotent_witness :
    ([LifecycleEvent.termSignal, LifecycleEvent.quitClick] ++
        [LifecycleEvent.teardownDone]).foldl lifecycleStep ⟨Phase.running, 0⟩ =
      ⟨Phase.stopped, 1⟩ ∧
    ∀ (e : LifecycleEvent) (k : Nat),
      lifecycleStep ⟨Phase.stopped, k⟩ e = ⟨Phase.stopped, k⟩ :=
  shutdown_idempotent [LifecycleEvent.termSignal, LifecycleEvent.quitClick]
    (by decide) (by decide)

/-- The function `removeOldLogs` over the directory listing (`os.ReadDir` returns the
entries sorted by file name): when more than 10 entries are present it removes
`entries[:len(entries)-10]`, the entries before the last 10 of the sorted
listing; otherwise it removes nothing.  Returns the removed entries and the
remaining ones. -/
def removeOldLogs (entries : List String) : List String × List String :=
  if 10 < entries.length then
    (entries.take (entries.length - 10), entries.drop (entries.length - 10))
  else ([], entries)

/-- C10. Log rotation: with 10 or fewer entries nothing is removed and the
call succeeds; with more than 10 entries exactly the entries before the last
10 of the sorted listing are removed, the removed and remaining entries
partition the listing in order, and exactly the 10 last entries (by sorted
name) remain. -/
theorem removeOldLogs_keeps_last_ten (entries : List String) :
    (entries.length ≤ 10 → removeOldLogs entries = ([], entries)) ∧
    (10 < entries.length →
      removeOldLogs entries =
        (entries.take (entries.length - 10), entries.drop (entries.length - 10)) ∧
      (removeOldLogs entries).1 ++ (removeOldLogs entries).2 = entries ∧
      (removeOldLogs entries).2.length = 10) := by
  constructor
  · intro h
    simp [removeOldLogs]
    omega
  · intro h
    refine ⟨by simp [removeOldLogs, h], ?_, ?_⟩
    · simp [removeOldLogs, h, List.take_append_drop]
    · simp [removeOldLogs, h]
      omega

/-- Witness for `removeOldLogs_keeps_last_ten`: two entries are kept as they
are; of twelve entries the first two are removed and the last ten remain. -/
theorem removeOldLogs_keeps_last_ten_witness :
    removeOldLogs ["a", "b"] = ([], ["a", "b"]) ∧
    removeOldLogs ["e01", "e02", "e03", "e04", "e05", "e06", "e07", "e08",
        "e09", "e10", "e11", "e12"] =
      (["e01", "e02"],
        ["e03", "e04", "e05", "e06", "e07", "e08", "e09", "e10", "e11", "e12"]) := by
  constructor
  · exact (removeOldLogs_keeps_last_ten ["a", "b"]).1 (by decide)
  · exact (((removeOldLogs_keeps_last_ten ["e01", "e02", "e03", "e04", "e05",
      "e06", "e07", "e08", "e09", "e10", "e11", "e12"]).2 (by decide)).1).trans
      (by decide)
